import Mathlib

/-!
Verification of the audio-creator segmentation-and-pipeline core.

The Python source is shallowly embedded over `List Char`:

* `pyStrip`, `pySplit1`, `pySplit2`, `pyJoin`, `pyLower` model Python
  `str.strip()`, `str.split(c)`, `str.split(two-char-sep)`, `sep.join(...)`
  and `str.lower()` for ASCII text;
* `chunkText` embeds `AudioPipeline._chunk_text` (src/app/audio/pipeline.py);
* `splitIntoChapters` embeds `StructureDetector.split_into_chapters`
  (src/app/processors/structure_detector.py);
* `generateChunkRun` embeds the engine interaction of
  `AudioGenerator.generate_chunk` (src/app/audio/generator.py) and
  `legacySynth` the retry loop of `create_aiff_files` (src/legacy/main.py);
* `combineModel` embeds `AudioCombiner.combine` (src/app/audio/combiner.py);
* `processChapter` / `processDocument` embed `AudioPipeline._process_chapter`
  and `AudioPipeline.process_document`, with external effects (generation,
  combination, conversion success) supplied by an explicit oracle.
-/

set_option maxRecDepth 10000

/-- Python whitespace for `str.strip` / regex `\s` on ASCII text:
space, tab, newline, carriage return, vertical tab, form feed. -/
def pyIsSpace (c : Char) : Bool :=
  c = ' ' || c = '\t' || c = '\n' || c = '\r' || c = '\x0b' || c = '\x0c'

/-- Python `str.strip()`: drop whitespace from both ends. -/
def pyStrip (l : List Char) : List Char :=
  ((l.dropWhile pyIsSpace).reverse.dropWhile pyIsSpace).reverse

/-- Python `str.split(sep)` for a one-character separator `a`. -/
def pySplit1 (a : Char) : List Char → List (List Char)
  | [] => [[]]
  | c :: rest =>
    if c = a then [] :: pySplit1 a rest
    else
      match pySplit1 a rest with
      | [] => [[c]]
      | x :: xs => (c :: x) :: xs

/-- Python `str.split(sep)` for a two-character separator `a ++ b`
(leftmost, non-overlapping occurrences). -/
def pySplit2 (a b : Char) : List Char → List (List Char)
  | [] => [[]]
  | [c] => [[c]]
  | c :: d :: rest =>
    if c = a ∧ d = b then [] :: pySplit2 a b rest
    else
      match pySplit2 a b (d :: rest) with
      | [] => [[c]]
      | x :: xs => (c :: x) :: xs

/-- Python `sep.join(pieces)`. -/
def pyJoin (sep : List Char) : List (List Char) → List Char
  | [] => []
  | [x] => x
  | x :: y :: rest => x ++ sep ++ pyJoin sep (y :: rest)

/-- Python `str.lower()` on ASCII text. -/
def pyLower (l : List Char) : List Char :=
  l.map Char.toLower

/-- Sum of the lengths of a list of strings. -/
def sumLen (ss : List (List Char)) : Nat :=
  (ss.map List.length).sum

/-- Sentence normalisation in `_chunk_text`:
`s_clean = s + "." if not s.endswith('.') else s`. -/
def sClean (s : List Char) : List Char :=
  if s.getLast? = some '.' then s else s ++ ['.']

/-- Greedy sentence-packing loop of `_chunk_text`
(src/app/audio/pipeline.py lines 148-163): sentences are packed into
`cur` while the running character total `curLen` stays within `b`;
a full buffer is flushed as the space-join of its sentences. -/
def packGo (b : Nat) : List (List Char) → List (List Char) → Nat → List (List Char)
  | [], cur, _ => if cur = [] then [] else [pyJoin [' '] cur]
  | s :: rest, cur, curLen =>
    let sc := sClean s
    if b < curLen + sc.length then
      (if cur = [] then [] else [pyJoin [' '] cur]) ++ packGo b rest [sc] sc.length
    else
      packGo b rest (cur ++ [sc]) (curLen + sc.length)

/-- Per-paragraph step of `_chunk_text`: a stripped paragraph within
budget becomes one chunk; a longer one is split on `". "` and packed. -/
def chunkPara (b : Nat) (p0 : List Char) : List (List Char) :=
  let p := pyStrip p0
  if p = [] then []
  else if b < p.length then packGo b (pySplit2 '.' ' ' p) [] 0
  else [p]

/-- Embedding of `AudioPipeline._chunk_text` (src/app/audio/pipeline.py
lines 132-167): split on blank-line-delimited paragraphs, then pack. -/
def chunkText (text : List Char) (b : Nat) : List (List Char) :=
  ((pySplit2 '\n' '\n' text).map (chunkPara b)).flatten

example : chunkText "Sentence one. Sentence two.".data 100 =
    ["Sentence one. Sentence two.".data] := by decide

example : chunkText (List.replicate 60 'A' ++ ". ".data ++ List.replicate 60 'B' ++ ['.']) 80 =
    [List.replicate 60 'A' ++ ['.'], List.replicate 60 'B' ++ ['.']] := by decide

example : chunkText "aaa. bbb.".data 8 = ["aaa. bbb.".data] := by decide

example : chunkText "A.. B".data 4 = ["A. B.".data] := by decide

/-! ### StructureDetector (src/app/processors/structure_detector.py) -/

/-- ASCII digit test (regex `\d`). -/
def isDigitCh (c : Char) : Bool :=
  '0' ≤ c && c ≤ '9'

/-- Regex `\w` word character: ASCII letter, digit or underscore. -/
def isWordCh (c : Char) : Bool :=
  ('a' ≤ c && c ≤ 'z') || ('A' ≤ c && c ≤ 'Z') || isDigitCh c || c = '_'

/-- Roman-numeral character of the classes `[IVX]` under `re.IGNORECASE`. -/
def isRomanCh (c : Char) : Bool :=
  c.toLower = 'i' || c.toLower = 'v' || c.toLower = 'x'

/-- Character of the class `[\dIVX]` under `re.IGNORECASE`. -/
def isNumRomanCh (c : Char) : Bool :=
  isDigitCh c || isRomanCh c

/-- Case-insensitive literal prefix match: `pre` is given lower-case,
and the matched prefix of `l` is dropped. -/
def dropPrefixCI (pre l : List Char) : Option (List Char) :=
  match pre, l with
  | [], rest => some rest
  | _ :: _, [] => none
  | p :: ps, c :: cs => if c.toLower = p then dropPrefixCI ps cs else none

/-- Regex `^chapter\s+[\dIVX]+` with `re.IGNORECASE` (pattern 1 of
`StructureDetector.chapter_patterns`). -/
def patChapterNum (l : List Char) : Bool :=
  match dropPrefixCI "chapter".data l with
  | none => false
  | some rest =>
    !(rest.takeWhile pyIsSpace).isEmpty &&
      !((rest.dropWhile pyIsSpace).takeWhile isNumRomanCh).isEmpty

/-- Regex `^chapter\s+\w+$` with `re.IGNORECASE` (pattern 2). -/
def patChapterWord (l : List Char) : Bool :=
  match dropPrefixCI "chapter".data l with
  | none => false
  | some rest =>
    !(rest.takeWhile pyIsSpace).isEmpty &&
      !(rest.dropWhile pyIsSpace).isEmpty &&
      (rest.dropWhile pyIsSpace).all isWordCh

/-- Regex `^\d+\.\s+\w+` with `re.IGNORECASE` (pattern 3). -/
def patNumberedSection (l : List Char) : Bool :=
  !(l.takeWhile isDigitCh).isEmpty &&
    (match l.dropWhile isDigitCh with
     | '.' :: rest =>
       !(rest.takeWhile pyIsSpace).isEmpty &&
         !((rest.dropWhile pyIsSpace).takeWhile isWordCh).isEmpty
     | _ => false)

/-- Regex `^[IVX]+\.\s+\w+` with `re.IGNORECASE` (pattern 4). -/
def patRomanSection (l : List Char) : Bool :=
  !(l.takeWhile isRomanCh).isEmpty &&
    (match l.dropWhile isRomanCh with
     | '.' :: rest =>
       !(rest.takeWhile pyIsSpace).isEmpty &&
         !((rest.dropWhile pyIsSpace).takeWhile isWordCh).isEmpty
     | _ => false)

/-- Python `str.isupper()` on ASCII text: at least one cased character
and no lower-case one. -/
def pyIsUpper (l : List Char) : Bool :=
  l.any (fun c => 'A' ≤ c && c ≤ 'Z') && !(l.any (fun c => 'a' ≤ c && c ≤ 'z'))

/-- All-caps heading heuristic of `_is_chapter_header`: `line.isupper()`,
`3 < len(line) < 50`, and `re.search('[A-Z]', line)`. -/
def allCapsHeuristic (l : List Char) : Bool :=
  pyIsUpper l && decide (3 < l.length) && decide (l.length < 50) &&
    l.any (fun c => 'A' ≤ c && c ≤ 'Z')

/-- Embedding of `StructureDetector._is_chapter_header`
(src/app/processors/structure_detector.py lines 85-102). -/
def isChapterHeader (l : List Char) : Bool :=
  if l = [] then false
  else
    patChapterNum l || patChapterWord l || patNumberedSection l ||
      patRomanSection l || allCapsHeuristic l

/-- Embedding of `ParsedChapter` (src/app/parsers/base_parser.py):
title, content and 1-based number (the metadata mapping is unused by
the detector and pipeline and is omitted). -/
structure ParsedChapter where
  title : List Char
  content : List Char
  number : Nat
deriving DecidableEq, Repr

/-- Loop state of `split_into_chapters`: emitted chapters, current
title, buffered lines, next chapter number, and whether any heading
has been seen. -/
structure SDState where
  chapters : List ParsedChapter
  title : List Char
  buffer : List (List Char)
  num : Nat
  found : Bool
deriving DecidableEq, Repr

/-- Close-out of the current buffer on meeting a heading
(src/app/processors/structure_detector.py lines 50-60): if the buffer
is non-empty and its joined, stripped content is non-blank, emit a
chapter and advance the counter. -/
def sdClose (st : SDState) : SDState :=
  if st.buffer ≠ [] then
    if pyStrip (pyJoin ['\n'] st.buffer) ≠ [] then
      { st with
        chapters :=
          st.chapters ++ [⟨st.title, pyStrip (pyJoin ['\n'] st.buffer), st.num⟩],
        num := st.num + 1 }
    else st
  else st

/-- One iteration of the line scan in `split_into_chapters`
(src/app/processors/structure_detector.py lines 44-66). -/
def sdStep (st : SDState) (line : List Char) : SDState :=
  if isChapterHeader (pyStrip line) then
    { sdClose st with title := pyStrip line, buffer := [], found := true }
  else
    { st with buffer := st.buffer ++ [line] }

/-- Final flush of `split_into_chapters`
(src/app/processors/structure_detector.py lines 68-83), including the
early `return []` when no heading was ever found. -/
def sdFinish (st : SDState) : List ParsedChapter :=
  if st.buffer ≠ [] then
    if pyStrip (pyJoin ['\n'] st.buffer) ≠ [] then
      if !st.found then []
      else st.chapters ++ [⟨st.title, pyStrip (pyJoin ['\n'] st.buffer), st.num⟩]
    else st.chapters
  else st.chapters

/-- Initial state of the scan: sentinel title `"Introduction"`, empty
buffer, counter 1, no heading seen. -/
def sdInit : SDState :=
  ⟨[], "Introduction".data, [], 1, false⟩

/-- Embedding of `StructureDetector.split_into_chapters`
(src/app/processors/structure_detector.py lines 24-83). -/
def splitIntoChapters (text : List Char) : List ParsedChapter :=
  sdFinish ((pySplit1 '\n' text).foldl sdStep sdInit)

example : splitIntoChapters "Chapter 1\nHello there.\n\nChapter 2\nGoodbye.".data =
    [⟨"Chapter 1".data, "Hello there.".data, 1⟩,
     ⟨"Chapter 2".data, "Goodbye.".data, 2⟩] := by decide

example : splitIntoChapters "Just flat text.".data = [] := by decide

example : splitIntoChapters "".data = [] := by decide

example : splitIntoChapters "   \n\n  ".data = [] := by decide

example : isChapterHeader "THE BEGINNING".data = true := by decide

example : isChapterHeader "Chapter One".data = true := by decide

example : isChapterHeader "12. Results".data = true := by decide

example : isChapterHeader "IV. The Storm".data = true := by decide

/-! ### SynthesisStage: AudioGenerator (src/app/audio/generator.py) and
the legacy retry loop (src/legacy/main.py). External engine behaviour is
an oracle `Nat → EngineOutcome` giving the fate of the i-th invocation. -/

/-- Outcome of one invocation of the external speech engine: it exits 0,
exits non-zero, or hangs past any deadline. -/
inductive EngineOutcome where
  | ok : EngineOutcome
  | err : EngineOutcome
  | hang : EngineOutcome
deriving DecidableEq, Repr

/-- Result of one chunk-synthesis call. -/
inductive SynthResult where
  | done : SynthResult
  | skipped : SynthResult
  | failed : SynthResult
  | diverged : SynthResult
deriving DecidableEq, Repr

/-- Observable trace of one chunk-synthesis call: its result, how many
times the engine was invoked, and how many partial output files were
removed. -/
structure SynthRun where
  result : SynthResult
  invocations : Nat
  cleanups : Nat
deriving DecidableEq, Repr

/-- Embedding of the engine interaction of `AudioGenerator.generate_chunk`
(src/app/audio/generator.py lines 49-97, the `say` path): blank text is
skipped without invoking the engine; otherwise `subprocess.run` is called
exactly once, with `check=True` and no `timeout` argument, so a non-zero
exit raises immediately (no retry) and a hanging engine blocks forever
(nothing is killed, no file is removed). -/
def generateChunkRun (text : List Char) (eng : Nat → EngineOutcome) : SynthRun :=
  if pyStrip text = [] then ⟨.skipped, 0, 0⟩
  else
    match eng 0 with
    | .ok => ⟨.done, 1, 0⟩
    | .err => ⟨.failed, 1, 0⟩
    | .hang => ⟨.diverged, 1, 0⟩

/-- Retry loop of `create_aiff_files` (src/legacy/main.py lines 117-154)
with `i` attempts already made and `fuel` attempts remaining out of
`max_retries = 3`: `process.wait(timeout)` returning means success
(the exit code is not checked), a `TimeoutExpired` kills the process,
unlinks the partial file and retries. -/
def legacyGo (eng : Nat → EngineOutcome) : Nat → Nat → SynthRun
  | i, 0 => ⟨.failed, i, i⟩
  | i, fuel + 1 =>
    match eng i with
    | .hang => legacyGo eng (i + 1) fuel
    | _ => ⟨.done, i + 1, i⟩

/-- Embedding of the per-chunk body of `create_aiff_files`
(src/legacy/main.py lines 110-156): blank chunks are skipped, otherwise
the retry loop runs with `max_retries = 3`. -/
def legacySynth (text : List Char) (eng : Nat → EngineOutcome) : SynthRun :=
  if pyStrip text = [] then ⟨.skipped, 0, 0⟩ else legacyGo eng 0 3

example : legacySynth "Hi.".data (fun _ => .hang) = ⟨.failed, 3, 3⟩ := by decide

example : generateChunkRun "Hi.".data (fun _ => .hang) = ⟨.diverged, 1, 0⟩ := by decide

/-! ### CombinationStage: AudioCombiner (src/app/audio/combiner.py) -/

/-- Embedding of `AudioCombiner.combine` (src/app/audio/combiner.py
lines 17-65): an empty input list raises `ValueError` before any output
is produced; otherwise the `sox` command line
`sox input1 ... inputN output` is invoked (also for a single input —
the single-file case deliberately falls through to `sox`). The `.ok`
value is the argv of the external invocation. -/
def combineModel (inputs : List (List Char)) (output : List Char) :
    Except (List Char) (List (List Char)) :=
  if inputs = [] then .error "No input files provided for combining.".data
  else .ok ("sox".data :: inputs ++ [output])

/-! ### ConversionStage: AudioConverter (src/app/audio/converter.py) -/

/-- Argv of `AudioConverter.to_mp3` (src/app/audio/converter.py lines
16-49): `ffmpeg -y -i input -codec:a libmp3lame -b:a 192k output`. -/
def toMp3Cmd (input output : List Char) : List (List Char) :=
  ["ffmpeg".data, "-y".data, "-i".data, input, "-codec:a".data,
   "libmp3lame".data, "-b:a".data, "192k".data, output]

/-- Argv of `AudioConverter.to_m4b` (src/app/audio/converter.py lines
51-102): concat-demuxer manifest followed by AAC encoding,
`ffmpeg -y -f concat -safe 0 -i concat_list.txt -c:a aac -b:a 128k output`. -/
def toM4bCmd (output : List Char) : List (List Char) :=
  ["ffmpeg".data, "-y".data, "-f".data, "concat".data, "-safe".data,
   "0".data, "-i".data, "concat_list.txt".data, "-c:a".data, "aac".data,
   "-b:a".data, "128k".data, output]

/-! ### PipelineOrchestrator: AudioPipeline (src/app/audio/pipeline.py) -/

/-- Decimal digits of a natural number. -/
def natChars (n : Nat) : List Char :=
  (Nat.repr n).data

/-- Python format `{n:0wd}`: decimal, zero-padded on the left to width `w`. -/
def padNum (w n : Nat) : List Char :=
  List.replicate (w - (natChars n).length) '0' ++ natChars n

/-- Characters kept by the title sanitizer of `_process_chapter`:
alphanumeric, space, hyphen or underscore. -/
def keepTitleCh (c : Char) : Bool :=
  ('a' ≤ c && c ≤ 'z') || ('A' ≤ c && c ≤ 'Z') || isDigitCh c ||
    c = ' ' || c = '-' || c = '_'

/-- Title sanitizer of `_process_chapter` (src/app/audio/pipeline.py line
121): keep alphanumerics, spaces, hyphens and underscores, then strip. -/
def sanitizeTitle (t : List Char) : List Char :=
  pyStrip (t.filter keepTitleCh)

/-- Final-file naming convention of `_process_chapter`
(src/app/audio/pipeline.py line 122): `{index:02d} - {safe_title}.{format}`. -/
def mkFilename (index : Nat) (title ext : List Char) : List Char :=
  padNum 2 index ++ " - ".data ++ sanitizeTitle title ++ '.' :: ext

/-- Per-chapter master-track path of `_process_chapter`
(src/app/audio/pipeline.py lines 96 and 116), relative to the document
workspace. -/
def masterPath (index : Nat) : List Char :=
  "ch_".data ++ natChars index ++ "/combined_master.aiff".data

/-- Chapter as the pipeline consumes it (`ParsedChapter.title` and
`.content`; `_process_chapter` ignores the stored `number` and uses the
enumeration index). -/
structure PChapter where
  title : List Char
  content : List Char
deriving DecidableEq, Repr

/-- Document as the pipeline consumes it. -/
structure PDoc where
  title : List Char
  content : List Char
  chapters : List PChapter
deriving DecidableEq, Repr

/-- External effects for one chapter: whether the k-th chunk generation
succeeded and left a file behind, and whether the `sox` combination and
the `ffmpeg` conversion exited 0. -/
structure ChapterOracle where
  genOk : Nat → Bool
  combineOk : Bool
  convertOk : Bool

/-- Embedding of `AudioPipeline._process_chapter` (src/app/audio/pipeline.py
lines 80-130) with format string `fm` (already lower-cased by `__init__`):
blank content or no chunks or no generated chunk files yield no output
file (`.ok none`); a failing combination or conversion raises
(`.error ()`, caught by `process_document`); otherwise the final file
name and the conversion argv are returned (`to_m4b` exactly when the
format is `m4b`, else `to_mp3`). -/
def processChapter (fm : List Char) (index : Nat) (ch : PChapter)
    (o : ChapterOracle) : Except Unit (Option (List Char × List (List Char))) :=
  if pyStrip ch.content = [] then .ok none
  else
    let chunks := chunkText ch.content 1000
    if chunks = [] then .ok none
    else
      let files := (List.range chunks.length).filter o.genOk
      if files = [] then .ok none
      else if !o.combineOk then .error ()
      else
        let name := mkFilename index ch.title fm
        let cmd := if fm = "m4b".data then toM4bCmd name
                   else toMp3Cmd (masterPath index) name
        if !o.convertOk then .error ()
        else .ok (some (name, cmd))

/-- Chapter loop of `process_document` (src/app/audio/pipeline.py lines
52-64), enumerating chapters from index `i`: a chapter-level exception is
logged and skipped, a `None` result is skipped, a produced file is
appended; processing always continues with the remaining chapters. -/
def processChapters (fm : List Char) (i : Nat) (chs : List PChapter)
    (os : Nat → ChapterOracle) : List (List Char) :=
  match chs with
  | [] => []
  | ch :: rest =>
    (match processChapter fm i ch (os i) with
     | .ok (some r) => [r.1]
     | _ => []) ++ processChapters fm (i + 1) rest os

/-- Embedding of `AudioPipeline.process_document` (src/app/audio/pipeline.py
lines 34-78) with the raw configured format string (lower-cased as in
`__init__`): with chapters, one pass per chapter starting at index 1;
without chapters, the whole content as a dummy chapter numbered 1 titled
with the document title. The returned value — the pipeline outcome — is
the list of final file names only. -/
def processDocument (fmtRaw : List Char) (doc : PDoc)
    (os : Nat → ChapterOracle) : List (List Char) :=
  let fm := pyLower fmtRaw
  if doc.chapters = [] then
    match processChapter fm 1 ⟨doc.title, doc.content⟩ (os 1) with
    | .ok (some r) => [r.1]
    | _ => []
  else processChapters fm 1 doc.chapters os

/-- Oracle in which every external step succeeds. -/
def allOkOracle : ChapterOracle :=
  ⟨fun _ => true, true, true⟩

example : processDocument "mp3".data
    ⟨"Flat Book".data, "Just some text content.".data, []⟩ (fun _ => allOkOracle) =
    ["01 - Flat Book.mp3".data] := by decide

example : processChapters "mp3".data 1
    [⟨"One".data, "Alpha.".data⟩, ⟨"Two".data, "Beta.".data⟩]
    (fun i => if i = 1 then ⟨fun _ => false, true, true⟩ else allOkOracle) =
    ["02 - Two.mp3".data] := by decide

/-! ### Rate mapping (src/app/audio/generator.py lines 33 and 60) -/

/-- Python `int()` on an exact rational value: truncation toward zero. -/
def pyIntOf (q : ℚ) : ℤ :=
  if 0 ≤ q then ⌊q⌋ else ⌈q⌉

/-- Embedding of `wpm = int(self.base_wpm * self.rate)` with
`base_wpm = 180` (src/app/audio/generator.py lines 33 and 60); the speed
multiplier is modelled as an exact rational. -/
def wpmOf (r : ℚ) : ℤ :=
  pyIntOf (180 * r)

example : wpmOf (6 / 5) = 216 := by norm_num [wpmOf, pyIntOf]

/-! ## Claim theorems -/

/-- Unfolding of one attempt of the legacy retry loop. -/
theorem legacyGo_succ (eng : Nat → EngineOutcome) (i fuel : Nat) :
    legacyGo eng i (fuel + 1) =
      match eng i with
      | .hang => legacyGo eng (i + 1) fuel
      | _ => ⟨.done, i + 1, i⟩ := rfl

/-- Formalisation of claim C1 as stated, specialised to its key
consequence: on an engine that times out on every attempt, the
synthesis stage must stop after the maximum of 3 attempts, removing the
partial output each time, and report the chunk as Failed. -/
def timeoutRetryClaim : Prop :=
  ∀ (text : List Char) (eng : Nat → EngineOutcome), pyStrip text ≠ [] →
    (∀ i, eng i = EngineOutcome.hang) →
    generateChunkRun text eng = ⟨.failed, 3, 3⟩

/-- C1 counterexample: `AudioGenerator.generate_chunk` calls
`subprocess.run` without a `timeout` argument and has no retry loop, so
on an engine that hangs on every call it makes exactly one invocation,
removes nothing, and never reports Failed — it diverges. -/
theorem generator_timeout_retry_counterexample :
    ¬ timeoutRetryClaim ∧
      generateChunkRun "Hi.".data (fun _ => .hang) =
        ⟨.diverged, 1, 0⟩ := by
  constructor
  · intro h
    have h2 := h "Hi.".data (fun _ => .hang) (by decide) (fun _ => rfl)
    exact absurd h2 (by decide)
  · decide

/-- C1 amended: the terminate-cleanup-retry policy with a maximum of 3
attempts is implemented in the legacy script `create_aiff_files`
(src/legacy/main.py), not in `AudioGenerator.generate_chunk`. There,
for a non-blank chunk, if the first `k` attempts time out then: when
all 3 attempts time out the chunk fails after exactly 3 invocations
with 3 partial-file removals, and when attempt `k < 3` returns, the
chunk succeeds after `k + 1` invocations with `k` removals. -/
theorem legacy_timeout_retry (text : List Char) (eng : Nat → EngineOutcome)
    (k : Nat) (htext : pyStrip text ≠ []) (hk : k ≤ 3)
    (hh : ∀ i, i < k → eng i = .hang) :
    (k = 3 → legacySynth text eng = ⟨.failed, 3, 3⟩) ∧
      (k < 3 → eng k ≠ .hang → legacySynth text eng = ⟨.done, k + 1, k⟩) := by
  unfold legacySynth
  rw [if_neg htext]
  interval_cases k
  · refine ⟨fun h => by omega, fun _ hne => ?_⟩
    rw [show (3 : Nat) = 2 + 1 from rfl, legacyGo_succ]
    cases h0 : eng 0 with
    | hang => exact absurd h0 hne
    | ok => rfl
    | err => rfl
  · refine ⟨fun h => by omega, fun _ hne => ?_⟩
    rw [show (3 : Nat) = 2 + 1 from rfl, legacyGo_succ, hh 0 (by omega),
      show (2 : Nat) = 1 + 1 from rfl, legacyGo_succ]
    cases h1 : eng 1 with
    | hang => exact absurd h1 hne
    | ok => rfl
    | err => rfl
  · refine ⟨fun h => by omega, fun _ hne => ?_⟩
    rw [show (3 : Nat) = 2 + 1 from rfl, legacyGo_succ, hh 0 (by omega),
      show (2 : Nat) = 1 + 1 from rfl, legacyGo_succ, hh 1 (by omega),
      show (1 : Nat) = 0 + 1 from rfl, legacyGo_succ]
    cases h2 : eng 2 with
    | hang => exact absurd h2 hne
    | ok => rfl
    | err => rfl
  · refine ⟨fun _ => ?_, fun h => by omega⟩
    rw [show (3 : Nat) = 2 + 1 from rfl, legacyGo_succ, hh 0 (by omega),
      show (2 : Nat) = 1 + 1 from rfl, legacyGo_succ, hh 1 (by omega),
      show (1 : Nat) = 0 + 1 from rfl, legacyGo_succ, hh 2 (by omega)]
    rfl

/-- C1 witness: a concrete engine that times out twice and then
succeeds; the legacy loop makes 3 invocations and 2 cleanups. -/
theorem legacy_timeout_retry_witness :
    (2 = 3 → legacySynth "Hi.".data
        (fun i => if i < 2 then .hang else .ok) = ⟨.failed, 3, 3⟩) ∧
      (2 < 3 → (fun i => if i < 2 then EngineOutcome.hang else .ok) 2 ≠ .hang →
        legacySynth "Hi.".data
          (fun i => if i < 2 then .hang else .ok) = ⟨.done, 2 + 1, 2⟩) :=
  legacy_timeout_retry "Hi.".data (fun i => if i < 2 then .hang else .ok) 2
    (by decide) (by omega)
    (fun i hi => by simp [hi])

/-- Text of end-to-end scenario 1. -/
def sc1Text : List Char :=
  "Chapter 1\nHello there.\n\nChapter 2\nGoodbye.".data

/-- C7: on the scenario-1 document, `StructureDetector` yields exactly
the chapters `("Chapter 1", "Hello there.")` and
`("Chapter 2", "Goodbye.")` numbered 1 and 2, and the pipeline with
format `"mp3"` (all external steps succeeding) produces exactly the
final files `"01 - Chapter 1.mp3"` and `"02 - Chapter 2.mp3"`. -/
theorem scenario1_chapters_and_filenames :
    splitIntoChapters sc1Text =
      [⟨"Chapter 1".data, "Hello there.".data, 1⟩,
       ⟨"Chapter 2".data, "Goodbye.".data, 2⟩] ∧
    processDocument "mp3".data
        ⟨"Book".data, sc1Text,
          (splitIntoChapters sc1Text).map (fun c => ⟨c.title, c.content⟩)⟩
        (fun _ => allOkOracle) =
      ["01 - Chapter 1.mp3".data, "02 - Chapter 2.mp3".data] := by
  constructor
  · decide
  · decide

/-- C8: `AudioCombiner.combine` rejects an empty fragment list with a
`ValueError` before producing any output or invoking `sox`, while a
single-fragment list is still routed through the external `sox` tool
(argv `sox f out`), not special-cased as a copy. -/
theorem combine_empty_rejected_single_invokes_tool :
    (∀ out : List Char,
      combineModel [] out =
        .error "No input files provided for combining.".data) ∧
    (∀ f out : List Char,
      combineModel [f] out = .ok ["sox".data, f, out]) :=
  ⟨fun _ => rfl, fun _ _ => rfl⟩

/-- Formalisation of claim C9 as stated: the words-per-minute value
equals `round(180 * r)` for every speed multiplier `r`. -/
def rateRoundClaim : Prop :=
  ∀ r : ℚ, wpmOf r = round (180 * r)

/-- C9 counterexample: at the exactly-representable multiplier
`r = 3/16 = 0.1875` we get `180 * r = 33.75`; the code computes
`int(33.75) = 33` (truncation) while the claim demands
`round(33.75) = 34`. -/
theorem wpm_round_counterexample :
    ¬ rateRoundClaim ∧ wpmOf (3 / 16) = 33 ∧
      round ((180 : ℚ) * (3 / 16)) = 34 := by
  refine ⟨fun h => ?_, ?_, ?_⟩
  · have h2 := h (3 / 16)
    rw [show ((180 : ℚ) * (3 / 16)) = 135 / 4 by norm_num] at h2
    rw [show wpmOf (3 / 16) = 33 by
      norm_num [wpmOf, pyIntOf]] at h2
    rw [show round ((135 : ℚ) / 4) = 34 by
      rw [round_eq]; norm_num] at h2
    exact absurd h2 (by norm_num)
  · norm_num [wpmOf, pyIntOf]
  · rw [show ((180 : ℚ) * (3 / 16)) = 135 / 4 by norm_num, round_eq]
    norm_num

/-- C9 amended: for every nonnegative speed multiplier `r`, the
words-per-minute value passed to the engine equals `⌊180 * r⌋` — the
base of 180 WPM scaled by `r` and truncated (Python `int()`), not
rounded to nearest. -/
theorem wpm_is_floor (r : ℚ) (h : 0 ≤ r) :
    wpmOf r = ⌊(180 : ℚ) * r⌋ := by
  unfold wpmOf pyIntOf
  rw [if_pos (by positivity)]

/-- C9 witness: at the multiplier `6/5 = 1.2` the theorem gives
`⌊216⌋ = 216` words per minute, matching the unit test value. -/
theorem wpm_is_floor_witness :
    (0 : ℚ) ≤ 6 / 5 ∧ wpmOf (6 / 5) = ⌊(180 : ℚ) * (6 / 5)⌋ :=
  ⟨by norm_num, wpm_is_floor (6 / 5) (by norm_num)⟩

/-- A non-heading line only extends the buffer. -/
theorem sdStep_nonheader (st : SDState) (line : List Char)
    (h : isChapterHeader (pyStrip line) = false) :
    sdStep st line = { st with buffer := st.buffer ++ [line] } := by
  unfold sdStep
  simp [h]

/-- When no scanned line is a heading, the scan never sets `found` and
never emits a chapter. -/
theorem foldl_nonheader (lines : List (List Char))
    (hyp : ∀ l ∈ lines, isChapterHeader (pyStrip l) = false) :
    ∀ st : SDState, (lines.foldl sdStep st).found = st.found ∧
      (lines.foldl sdStep st).chapters = st.chapters := by
  induction lines with
  | nil => intro st; exact ⟨rfl, rfl⟩
  | cons l ls ih =>
    intro st
    rw [List.foldl_cons, sdStep_nonheader st l (hyp l (by simp))]
    exact ih (fun x hx => hyp x (by simp [hx])) _

/-- C5: for every input text in which no line classifies as a chapter
heading (the empty and the all-blank text included),
`split_into_chapters` returns the empty chapter list; the embedding is
a total function, so no exception can be raised. -/
theorem no_heading_yields_empty (text : List Char)
    (hyp : ∀ line ∈ pySplit1 '\n' text,
      isChapterHeader (pyStrip line) = false) :
    splitIntoChapters text = [] := by
  unfold splitIntoChapters sdFinish
  obtain ⟨hf, hc⟩ := foldl_nonheader (pySplit1 '\n' text) hyp sdInit
  rw [hf, hc]
  by_cases hb : ((pySplit1 '\n' text).foldl sdStep sdInit).buffer = []
  · simp [hb, sdInit]
  · simp [hb, sdInit]

/-- C5 witness: the empty text has no heading line and yields the empty
chapter list. -/
theorem no_heading_yields_empty_witness :
    (∀ line ∈ pySplit1 '\n' ("".data),
      isChapterHeader (pyStrip line) = false) ∧
      splitIntoChapters "".data = [] :=
  ⟨by decide, no_heading_yields_empty "".data (by decide)⟩

/-- Invariant of the detector scan: the chapter counter is one past the
number of emitted chapters, the emitted numbers are exactly
`1, 2, ..., k` in order, and every emitted content is a non-blank
already-stripped string. -/
def sdInv (st : SDState) : Prop :=
  st.num = st.chapters.length + 1 ∧
  st.chapters.map ParsedChapter.number = List.range' 1 st.chapters.length ∧
  ∀ ch ∈ st.chapters, ch.content ≠ [] ∧ pyStrip ch.content = ch.content

/-- A list whose head does not satisfy `p` is unchanged by `dropWhile p`. -/
theorem dropWhile_eq_self_of_headq (p : Char → Bool) (l : List Char)
    (h : ∀ c, l.head? = some c → p c = false) : l.dropWhile p = l := by
  cases l with
  | nil => rfl
  | cons c cs => simp [List.dropWhile_cons, h c rfl]

/-- `dropWhile` keeps the last element when its result is non-empty. -/
theorem getLastq_dropWhile (p : Char → Bool) (l : List Char)
    (h : l.dropWhile p ≠ []) : (l.dropWhile p).getLast? = l.getLast? := by
  obtain ⟨u, hu⟩ := List.dropWhile_suffix (l := l) p
  have h2 : (u ++ l.dropWhile p).getLast? = (l.dropWhile p).getLast? :=
    List.getLast?_append_of_ne_nil u h
  rw [hu] at h2
  exact h2.symm

/-- The head of a stripped string is never whitespace. -/
theorem headq_pyStrip_not_space (l : List Char) :
    ∀ c, (pyStrip l).head? = some c → pyIsSpace c = false := by
  intro c hc
  unfold pyStrip at hc
  rw [List.head?_reverse] at hc
  have hne : (l.dropWhile pyIsSpace).reverse.dropWhile pyIsSpace ≠ [] := by
    intro h
    rw [h] at hc
    simp at hc
  rw [getLastq_dropWhile _ _ hne, List.getLast?_reverse] at hc
  have hne2 : l.dropWhile pyIsSpace ≠ [] := by
    intro h
    rw [h] at hc
    simp at hc
  rw [List.head?_eq_head hne2] at hc
  have hcc : c = (l.dropWhile pyIsSpace).head hne2 := (Option.some.inj hc).symm
  rw [hcc]
  exact List.head_dropWhile_not pyIsSpace l hne2

/-- Python `strip()` is idempotent. -/
theorem pyStrip_idem (l : List Char) : pyStrip (pyStrip l) = pyStrip l := by
  have h1 : (pyStrip l).dropWhile pyIsSpace = pyStrip l :=
    dropWhile_eq_self_of_headq _ _ (headq_pyStrip_not_space l)
  have h2 : (pyStrip l).reverse.dropWhile pyIsSpace = (pyStrip l).reverse := by
    unfold pyStrip
    rw [List.reverse_reverse, List.dropWhile_idempotent]
  calc pyStrip (pyStrip l)
      = (((pyStrip l).dropWhile pyIsSpace).reverse.dropWhile pyIsSpace).reverse := rfl
    _ = ((pyStrip l).reverse.dropWhile pyIsSpace).reverse := by rw [h1]
    _ = (pyStrip l).reverse.reverse := by rw [h2]
    _ = pyStrip l := List.reverse_reverse _

/-- Appending a freshly numbered chapter with non-blank stripped content
preserves the detector invariant. -/
theorem sdInv_append (st : SDState) (h : sdInv st) (t c : List Char)
    (hc : c ≠ []) (hs : pyStrip c = c) :
    sdInv { st with chapters := st.chapters ++ [⟨t, c, st.num⟩],
                    num := st.num + 1 } := by
  obtain ⟨hnum, hmap, hcont⟩ := h
  refine ⟨by simp [hnum], ?_, ?_⟩
  · simp only [List.map_append, List.map_cons, List.map_nil,
      List.length_append, List.length_cons, List.length_nil]
    rw [hmap, hnum, List.range'_1_concat]
    simp [Nat.add_comm]
  · intro ch hch
    rcases List.mem_append.mp hch with h1 | h2
    · exact hcont ch h1
    · rw [List.mem_singleton.mp h2]
      exact ⟨hc, hs⟩

/-- The close-out step preserves the detector invariant. -/
theorem sdClose_inv (st : SDState) (h : sdInv st) : sdInv (sdClose st) := by
  unfold sdClose
  split
  · split
    · next hcne => exact sdInv_append st h st.title _ hcne (pyStrip_idem _)
    · exact h
  · exact h

/-- Each scan step preserves the detector invariant. -/
theorem sdStep_inv (st : SDState) (line : List Char) (h : sdInv st) :
    sdInv (sdStep st line) := by
  unfold sdStep
  split
  · exact sdClose_inv st h
  · exact h

/-- The whole scan preserves the detector invariant. -/
theorem sdFoldl_inv (lines : List (List Char)) :
    ∀ st : SDState, sdInv st → sdInv (lines.foldl sdStep st) := by
  induction lines with
  | nil => exact fun st h => h
  | cons l ls ih => exact fun st h => ih _ (sdStep_inv st l h)

/-- The initial scan state satisfies the invariant. -/
theorem sdInv_init : sdInv sdInit :=
  ⟨rfl, rfl, by simp [sdInit]⟩

/-- The final flush preserves numbering and non-blank contents. -/
theorem sdFinish_inv (st : SDState) (h : sdInv st) :
    (sdFinish st).map ParsedChapter.number =
      List.range' 1 (sdFinish st).length ∧
    ∀ ch ∈ sdFinish st, ch.content ≠ [] ∧ pyStrip ch.content = ch.content := by
  unfold sdFinish
  split
  · split
    · next hcne =>
      split
      · exact ⟨rfl, by simp⟩
      · have h2 := sdInv_append st h st.title _ hcne (pyStrip_idem _)
        exact ⟨h2.2.1, h2.2.2⟩
    · exact ⟨h.2.1, h.2.2⟩
  · exact ⟨h.2.1, h.2.2⟩

/-- C3: for every input text with at least one heading line, the chapter
numbers emitted by `split_into_chapters` are exactly the consecutive
integers `1, 2, ..., k` in emission order (strictly increasing, starting
at 1, no gaps), and every emitted chapter has non-empty content after
trimming. -/
theorem detector_numbering_and_nonempty (text : List Char)
    (_hyp : ∃ line ∈ pySplit1 '\n' text,
      isChapterHeader (pyStrip line) = true) :
    (splitIntoChapters text).map ParsedChapter.number =
      List.range' 1 (splitIntoChapters text).length ∧
    ∀ ch ∈ splitIntoChapters text, pyStrip ch.content ≠ [] := by
  have h := sdFinish_inv ((pySplit1 '\n' text).foldl sdStep sdInit)
    (sdFoldl_inv (pySplit1 '\n' text) sdInit sdInv_init)
  refine ⟨h.1, fun ch hch => ?_⟩
  rw [(h.2 ch hch).2]
  exact (h.2 ch hch).1

/-- C3 witness: a concrete two-heading text; the detector emits chapter
numbers `[1, 2]` with non-blank contents. -/
theorem detector_numbering_witness :
    (splitIntoChapters sc1Text).map ParsedChapter.number =
      List.range' 1 (splitIntoChapters sc1Text).length ∧
    ∀ ch ∈ splitIntoChapters sc1Text, pyStrip ch.content ≠ [] :=
  detector_numbering_and_nonempty sc1Text
    ⟨"Chapter 1".data, by decide, by decide⟩

/-- A normalised sentence is never empty. -/
theorem sClean_ne_nil (s : List Char) : sClean s ≠ [] := by
  unfold sClean
  split
  · next h =>
    intro hnil
    rw [hnil] at h
    simp at h
  · simp

/-- Unfolding lemma: `sumLen` over a cons cell. -/
theorem sumLen_cons (x : List Char) (ss : List (List Char)) :
    sumLen (x :: ss) = x.length + sumLen ss := by
  simp [sumLen]

/-- Unfolding lemma: `sumLen` over an append. -/
theorem sumLen_append (s t : List (List Char)) :
    sumLen (s ++ t) = sumLen s + sumLen t := by
  simp [sumLen]

/-- Length of the space-join of a non-empty list of pieces: the piece
characters plus one separator between consecutive pieces. -/
theorem pyJoin_space_length (ss : List (List Char)) (h : ss ≠ []) :
    (pyJoin [' '] ss).length + 1 = sumLen ss + ss.length := by
  induction ss with
  | nil => exact absurd rfl h
  | cons x rest ih =>
    cases rest with
    | nil => simp [pyJoin, sumLen]
    | cons y t =>
      have ih2 := ih (by simp)
      have hj : pyJoin [' '] (x :: y :: t) = x ++ [' '] ++ pyJoin [' '] (y :: t) := rfl
      rw [hj, sumLen_cons]
      simp only [List.length_append, List.length_cons, List.length_nil] at ih2 ⊢
      omega

/-- Every chunk flushed by the packing loop is a space-join of
normalised sentences; it is a single sentence, or its sentences total at
most `b` characters. The accumulator invariant: `curLen` is the running
total, all buffered pieces are non-empty, and a multi-piece buffer
totals at most `b`. -/
theorem packGo_spec (b : Nat) :
    ∀ (sents cur : List (List Char)) (curLen : Nat),
      curLen = sumLen cur →
      (∀ s ∈ cur, s ≠ []) →
      (cur.length ≤ 1 ∨ sumLen cur ≤ b) →
      ∀ c ∈ packGo b sents cur curLen,
        ∃ ss : List (List Char), ss ≠ [] ∧ (∀ s ∈ ss, s ≠ []) ∧
          c = pyJoin [' '] ss ∧ (ss.length = 1 ∨ sumLen ss ≤ b) := by
  intro sents
  induction sents with
  | nil =>
    intro cur curLen h1 h2 h3 c hc
    unfold packGo at hc
    by_cases hcur : cur = []
    · rw [if_pos hcur] at hc
      simp at hc
    · rw [if_neg hcur] at hc
      rw [List.mem_singleton.mp hc]
      refine ⟨cur, hcur, h2, rfl, ?_⟩
      rcases h3 with h3 | h3
      · left
        have h0 : cur.length ≠ 0 := fun h => hcur (List.length_eq_zero.mp h)
        omega
      · right; exact h3
  | cons s rest ih =>
    intro cur curLen h1 h2 h3 c hc
    unfold packGo at hc
    by_cases hb : b < curLen + (sClean s).length
    · rw [if_pos hb] at hc
      rcases List.mem_append.mp hc with hflush | htail
      · by_cases hcur : cur = []
        · rw [if_pos hcur] at hflush
          simp at hflush
        · rw [if_neg hcur] at hflush
          rw [List.mem_singleton.mp hflush]
          refine ⟨cur, hcur, h2, rfl, ?_⟩
          rcases h3 with h3 | h3
          · left
            have h0 : cur.length ≠ 0 := fun h => hcur (List.length_eq_zero.mp h)
            omega
          · right; exact h3
      · refine ih [sClean s] (sClean s).length ?_ ?_ ?_ c htail
        · rw [sumLen_cons]; simp [sumLen]
        · intro x hx
          rw [List.mem_singleton.mp hx]
          exact sClean_ne_nil s
        · left; simp
    · rw [if_neg hb] at hc
      have hsum : sumLen (cur ++ [sClean s]) = curLen + (sClean s).length := by
        rw [sumLen_append, sumLen_cons, h1]
        simp [sumLen]
      refine ih (cur ++ [sClean s]) (curLen + (sClean s).length) hsum.symm ?_ ?_ c hc
      · intro x hx
        rcases List.mem_append.mp hx with hx | hx
        · exact h2 x hx
        · rw [List.mem_singleton.mp hx]
          exact sClean_ne_nil s
      · right
        omega

/-- Formalisation of claim C2 as stated: every chunk fits the budget
unless it consists of a single sentence (under the code's own sentence
delimiter `". "`). -/
def chunkBudgetClaim (text : List Char) (b : Nat) : Prop :=
  ∀ c ∈ chunkText text b, c.length ≤ b ∨ (pySplit2 '.' ' ' c).length = 1

/-- C2 counterexample: on the text `"aaa. bbb."` with budget 8 the code
produces the single chunk `"aaa. bbb."` of length 9 > 8, which contains
two sentences — the greedy packer counts only sentence characters
against the budget, not the joining spaces. -/
theorem chunk_budget_counterexample :
    ¬ chunkBudgetClaim "aaa. bbb.".data 8 ∧
      chunkText "aaa. bbb.".data 8 = ["aaa. bbb.".data] ∧
      ("aaa. bbb.".data).length = 9 ∧
      (pySplit2 '.' ' ' "aaa. bbb.".data).length = 2 := by
  refine ⟨?_, by decide, by decide, by decide⟩
  intro h
  have h2 := h "aaa. bbb.".data (by decide)
  exact absurd h2 (by decide)

/-- C2 amended: every chunk produced by `_chunk_text` either fits the
budget, or is a space-join of normalised sentences `ss` in which either
`ss` is a single (over-long) sentence, or the sentences total at most
`b` characters and the chunk exceeds `b` only by the `ss.length - 1`
joining spaces, i.e. `c.length + 1 ≤ b + ss.length`. -/
theorem chunk_budget_bound (text : List Char) (b : Nat) (c : List Char)
    (hc : c ∈ chunkText text b) :
    c.length ≤ b ∨
      ∃ ss : List (List Char), ss ≠ [] ∧ c = pyJoin [' '] ss ∧
        (ss.length = 1 ∨ (sumLen ss ≤ b ∧ c.length + 1 ≤ b + ss.length)) := by
  unfold chunkText at hc
  rw [List.mem_flatten] at hc
  obtain ⟨chunks, hchunks, hcmem⟩ := hc
  rw [List.mem_map] at hchunks
  obtain ⟨p, _, hp⟩ := hchunks
  rw [← hp] at hcmem
  unfold chunkPara at hcmem
  by_cases h0 : pyStrip p = []
  · simp [h0] at hcmem
  · rw [if_neg h0] at hcmem
    by_cases h1 : b < (pyStrip p).length
    · rw [if_pos h1] at hcmem
      obtain ⟨ss, hne, _, hjoin, hsz⟩ :=
        packGo_spec b (pySplit2 '.' ' ' (pyStrip p)) [] 0 rfl
          (by intro x hx; simp at hx) (by left; simp) c hcmem
      right
      refine ⟨ss, hne, hjoin, ?_⟩
      rcases hsz with hsz | hsz
      · left; exact hsz
      · right
        refine ⟨hsz, ?_⟩
        have hlen := pyJoin_space_length ss hne
        rw [← hjoin] at hlen
        omega
    · rw [if_neg h1] at hcmem
      rw [List.mem_singleton.mp hcmem]
      left
      omega

/-- C2 witness: the chunk `"ab."` of `chunkText "ab. cd." 3` satisfies
the amended bound. -/
theorem chunk_budget_bound_witness :
    "ab.".data ∈ chunkText "ab. cd.".data 3 ∧
      (("ab.".data : List Char).length ≤ 3 ∨
        ∃ ss : List (List Char), ss ≠ [] ∧ "ab.".data = pyJoin [' '] ss ∧
          (ss.length = 1 ∨
            (sumLen ss ≤ 3 ∧ ("ab.".data : List Char).length + 1 ≤ 3 + ss.length))) :=
  ⟨by decide, chunk_budget_bound "ab. cd.".data 3 "ab.".data (by decide)⟩

/-- The Python splitter never returns an empty piece list. -/
theorem pySplit2_ne_nil (a b : Char) : ∀ s : List Char, pySplit2 a b s ≠ [] := by
  intro s
  match s with
  | [] => simp [pySplit2]
  | [c] => simp [pySplit2]
  | c :: d :: rest =>
    unfold pySplit2
    split
    · simp
    · split
      · simp
      · simp

/-- Joining after consing a character onto the first piece. -/
theorem pyJoin_cons_head (sep : List Char) (c : Char) (x : List Char)
    (xs : List (List Char)) :
    pyJoin sep ((c :: x) :: xs) = c :: pyJoin sep (x :: xs) := by
  cases xs with
  | nil => rfl
  | cons y t => simp [pyJoin]

/-- Splitting on a two-character separator and re-joining with the same
separator recovers the original string. -/
theorem pyJoin_pySplit2 (a b : Char) :
    ∀ s : List Char, pyJoin [a, b] (pySplit2 a b s) = s
  | [] => rfl
  | [c] => rfl
  | c :: d :: rest => by
    unfold pySplit2
    split
    · next h =>
      have ih := pyJoin_pySplit2 a b rest
      cases hs : pySplit2 a b rest with
      | nil => exact absurd hs (pySplit2_ne_nil a b rest)
      | cons x xs =>
        rw [hs] at ih
        have hj : pyJoin [a, b] ([] :: x :: xs) =
            [] ++ [a, b] ++ pyJoin [a, b] (x :: xs) := rfl
        rw [hj, ih, h.1, h.2]
        simp
    · next h =>
      have ih := pyJoin_pySplit2 a b (d :: rest)
      cases hs : pySplit2 a b (d :: rest) with
      | nil => exact absurd hs (pySplit2_ne_nil a b (d :: rest))
      | cons x xs =>
        rw [hs] at ih
        rw [pyJoin_cons_head, ih]

/-- Characters that survive whitespace removal. -/
def keepNonWS (c : Char) : Bool :=
  !pyIsSpace c

/-- Dropping leading whitespace does not change the non-whitespace
characters. -/
theorem filter_dropWhile_space (l : List Char) :
    (l.dropWhile pyIsSpace).filter keepNonWS = l.filter keepNonWS := by
  induction l with
  | nil => rfl
  | cons c cs ih =>
    by_cases h : pyIsSpace c = true
    · rw [List.dropWhile_cons_of_pos h, ih, List.filter_cons]
      have : keepNonWS c = false := by simp [keepNonWS, h]
      rw [this]
      simp
    · rw [List.dropWhile_cons_of_neg h]

/-- Stripping does not change the non-whitespace characters. -/
theorem filter_pyStrip (l : List Char) :
    (pyStrip l).filter keepNonWS = l.filter keepNonWS := by
  unfold pyStrip
  rw [List.filter_reverse, filter_dropWhile_space, List.filter_reverse,
    List.reverse_reverse, filter_dropWhile_space]

/-- Filtering the blank-line join piece by piece. -/
theorem filter_pyJoin_blankline (ss : List (List Char)) :
    (pyJoin ['\n', '\n'] ss).filter keepNonWS =
      (ss.map (fun p => p.filter keepNonWS)).flatten := by
  induction ss with
  | nil => rfl
  | cons x rest ih =>
    cases rest with
    | nil => simp [pyJoin]
    | cons y t =>
      have hj : pyJoin ['\n', '\n'] (x :: y :: t) =
          x ++ ['\n', '\n'] ++ pyJoin ['\n', '\n'] (y :: t) := rfl
      rw [hj]
      rw [List.filter_append, List.filter_append, ih]
      have hsep : (['\n', '\n'] : List Char).filter keepNonWS = [] := rfl
      rw [hsep]
      simp

/-- A paragraph that fits the budget contributes exactly its own
non-whitespace characters. -/
theorem chunkPara_filter (b : Nat) (p : List Char)
    (h : (pyStrip p).length ≤ b) :
    ((chunkPara b p).flatten).filter keepNonWS = p.filter keepNonWS := by
  unfold chunkPara
  by_cases h0 : pyStrip p = []
  · rw [if_pos h0]
    have h2 := filter_pyStrip p
    rw [h0] at h2
    simpa using h2.symm
  · rw [if_neg h0, if_neg (by omega)]
    simpa using filter_pyStrip p

/-- Paragraph-list form of the preservation argument. -/
theorem chunkParas_filter (b : Nat) (ps : List (List Char))
    (h : ∀ p ∈ ps, (pyStrip p).length ≤ b) :
    (((ps.map (chunkPara b)).flatten).flatten).filter keepNonWS =
      (ps.map (fun p => p.filter keepNonWS)).flatten := by
  induction ps with
  | nil => rfl
  | cons p rest ih =>
    simp only [List.map_cons, List.flatten_cons, List.flatten_append,
      List.filter_append]
    rw [chunkPara_filter b p (h p (by simp)), ih (fun q hq => h q (by simp [hq]))]

/-- Formalisation of claim C6 as stated: concatenating the chunks
reproduces exactly the non-whitespace characters of the chapter text
(content preservation modulo whitespace collapsing). -/
def chunkContentClaim (text : List Char) (b : Nat) : Prop :=
  ((chunkText text b).flatten).filter keepNonWS = text.filter keepNonWS

/-- C6 counterexample: on the text `"A.. B"` with budget 4 the sentence
splitter yields `["A.", "B"]` and the packer emits the single chunk
`"A. B."` — one period of `"A.."` is dropped and a terminal period is
added to `"B"`, so the non-whitespace content (`"A.B."` versus `"A..B"`)
is not preserved. -/
theorem chunk_content_counterexample :
    ¬ chunkContentClaim "A.. B".data 4 ∧
      chunkText "A.. B".data 4 = ["A. B.".data] := by
  constructor
  · intro h
    unfold chunkContentClaim at h
    exact absurd h (by decide)
  · decide

/-- C6 amended: whenever every stripped paragraph of the chapter fits
the budget (so the period-normalising sentence fallback is never
taken), concatenating all chunks in order reproduces exactly the
non-whitespace characters of the input — nothing is dropped, duplicated
or introduced. When a paragraph exceeds the budget, preservation holds
only up to the sentence splitter's period normalisation. -/
theorem chunk_content_preserved (text : List Char) (b : Nat)
    (h : ∀ p ∈ pySplit2 '\n' '\n' text, (pyStrip p).length ≤ b) :
    ((chunkText text b).flatten).filter keepNonWS =
      text.filter keepNonWS := by
  conv_rhs => rw [← pyJoin_pySplit2 '\n' '\n' text]
  rw [filter_pyJoin_blankline]
  unfold chunkText
  exact chunkParas_filter b (pySplit2 '\n' '\n' text) h

/-- C6 witness: a two-paragraph text whose paragraphs fit the budget;
chunking preserves the non-whitespace content. -/
theorem chunk_content_preserved_witness :
    (∀ p ∈ pySplit2 '\n' '\n' "Hello there.\n\nGoodbye.".data,
      (pyStrip p).length ≤ 1000) ∧
      ((chunkText "Hello there.\n\nGoodbye.".data 1000).flatten).filter keepNonWS =
        ("Hello there.\n\nGoodbye.".data).filter keepNonWS :=
  ⟨by decide, chunk_content_preserved "Hello there.\n\nGoodbye.".data 1000 (by decide)⟩

/-- The two conversion argvs are distinct commands. -/
theorem toMp3Cmd_ne_toM4bCmd (input out1 out2 : List Char) :
    toMp3Cmd input out1 ≠ toM4bCmd out2 := by
  intro h
  have hlen := congrArg List.length h
  simp [toMp3Cmd, toM4bCmd] at hlen

/-- C4 amended: the pipeline outcome is exactly the ordered list of
final files of the chapters whose processing succeeded — each chapter is
processed independently of its siblings, a chapter with zero generated
chunk files yields no final file (`.ok none`), and such a chapter is
simply omitted from the returned list; the outcome carries no failure
records (failures are only logged). -/
theorem pipeline_failure_isolation :
    (∀ (fm : List Char) (i : Nat) (chs : List PChapter)
        (os : Nat → ChapterOracle),
      processChapters fm i chs os =
        (List.enumFrom i chs).filterMap (fun p =>
          match processChapter fm p.1 p.2 (os p.1) with
          | .ok (some r) => some r.1
          | _ => none)) ∧
    (∀ (fm : List Char) (i : Nat) (ch : PChapter) (o : ChapterOracle),
      (∀ k, o.genOk k = false) → processChapter fm i ch o = .ok none) := by
  constructor
  · intro fm i chs os
    induction chs generalizing i with
    | nil => rfl
    | cons ch rest ih =>
      show (match processChapter fm i ch (os i) with
            | .ok (some r) => [r.1]
            | _ => []) ++ processChapters fm (i + 1) rest os = _
      rw [List.enumFrom_cons, List.filterMap_cons, ih (i + 1)]
      cases hpc : processChapter fm i ch (os i) with
      | error e => simp [hpc]
      | ok v =>
        cases v with
        | none => simp [hpc]
        | some r => simp [hpc]
  · intro fm i ch o hfail
    have hfilter : ∀ n : Nat, (List.range n).filter o.genOk = [] := by
      intro n
      rw [List.filter_eq_nil_iff]
      intro a _
      simp [hfail a]
    simp only [processChapter]
    split
    · rfl
    · split
      · rfl
      · rw [hfilter]
        simp

/-- Document and oracle of end-to-end scenario 3: every chunk of
chapter 1 fails to generate; chapter 2 succeeds fully. -/
def sc3Doc : PDoc :=
  ⟨"Book".data, [], [⟨"One".data, "Alpha.".data⟩, ⟨"Two".data, "Beta.".data⟩]⟩

/-- Oracle for scenario 3. -/
def sc3Os : Nat → ChapterOracle :=
  fun i => if i = 1 then ⟨fun _ => false, true, true⟩ else allOkOracle

/-- C4 counterexample: with every chunk of chapter 1 failing, the
pipeline outcome — the return value of `process_document` — is exactly
`["02 - Two.mp3"]`: the sibling chapter is still processed and produces
its file, the failed chapter produces none, but no entry of the outcome
records chapter 1, because the outcome is a bare list of final file
paths and contains no failure list at all. -/
theorem pipeline_failure_list_counterexample :
    processDocument "mp3".data sc3Doc sc3Os = ["02 - Two.mp3".data] ∧
      ∀ x ∈ processDocument "mp3".data sc3Doc sc3Os,
        x.take 2 ≠ "01".data := by
  constructor
  · decide
  · decide

/-- C4 witness: the all-fail oracle of scenario 3 satisfies the
hypothesis of the second conjunct, and chapter 1 indeed yields no file. -/
theorem pipeline_failure_isolation_witness :
    processChapter "mp3".data 1 ⟨"One".data, "Alpha.".data⟩ (sc3Os 1) =
      .ok none :=
  pipeline_failure_isolation.2 "mp3".data 1 ⟨"One".data, "Alpha.".data⟩
    (sc3Os 1) (fun _ => rfl)

/-- C10: whenever `_process_chapter` produces a final file, the
conversion command is `to_m4b` exactly when the (lower-cased) configured
format equals `"m4b"`; for every other format the chapter master is
transcoded through the MP3 path (`ffmpeg ... libmp3lame ...`) while the
output file still carries the configured (lower-cased) format string as
its extension. -/
theorem format_routing (fmt : List Char) (i : Nat) (ch : PChapter)
    (o : ChapterOracle) (name : List Char) (cmd : List (List Char))
    (hres : processChapter (pyLower fmt) i ch o = .ok (some (name, cmd))) :
    (pyLower fmt ≠ "m4b".data →
      cmd = toMp3Cmd (masterPath i) name ∧
      "libmp3lame".data ∈ cmd ∧
      ∃ pre : List Char, name = pre ++ '.' :: pyLower fmt) ∧
    (pyLower fmt = "m4b".data ↔ cmd = toM4bCmd name) := by
  simp only [processChapter] at hres
  split at hres
  · exact absurd hres (by simp)
  · split at hres
    · exact absurd hres (by simp)
    · split at hres
      · exact absurd hres (by simp)
      · split at hres
        · exact absurd hres (by simp)
        · split at hres
          · exact absurd hres (by simp)
          · simp only [Except.ok.injEq, Option.some.injEq, Prod.mk.injEq] at hres
            obtain ⟨hname, hcmd⟩ := hres
            subst hname
            constructor
            · intro hne
              rw [if_neg hne] at hcmd
              refine ⟨hcmd.symm, ?_, ?_⟩
              · rw [← hcmd]
                simp [toMp3Cmd]
              · refine ⟨padNum 2 i ++ " - ".data ++ sanitizeTitle ch.title, ?_⟩
                simp [mkFilename, List.append_assoc]
            · constructor
              · intro hm
                rw [if_pos hm] at hcmd
                rw [← hcmd]
              · intro hcmdeq
                by_contra hm
                rw [if_neg hm] at hcmd
                rw [← hcmd] at hcmdeq
                exact toMp3Cmd_ne_toM4bCmd _ _ _ hcmdeq

/-- C10 witness: the configured format `"MP3"` lower-cases to `"mp3"`,
is routed through the MP3 conversion, and names the file with the
`.mp3` extension. -/
theorem format_routing_witness :
    (pyLower "MP3".data ≠ "m4b".data →
      toMp3Cmd (masterPath 1) "01 - T.mp3".data =
          toMp3Cmd (masterPath 1) "01 - T.mp3".data ∧
      "libmp3lame".data ∈ toMp3Cmd (masterPath 1) "01 - T.mp3".data ∧
      ∃ pre : List Char,
        "01 - T.mp3".data = pre ++ '.' :: pyLower "MP3".data) ∧
    (pyLower "MP3".data = "m4b".data ↔
      toMp3Cmd (masterPath 1) "01 - T.mp3".data =
        toM4bCmd "01 - T.mp3".data) :=
  format_routing "MP3".data 1 ⟨"T".data, "Hi.".data⟩ allOkOracle
    "01 - T.mp3".data (toMp3Cmd (masterPath 1) "01 - T.mp3".data) rfl
